import Mathlib

/-!
Verification of the `coolslides` devserver room module
(`apps/devserver/src/rooms.rs`): a shallow embedding of the Room /
RoomManager data model and operations, with theorems checking the
specification's claims about history bounding, recording/export,
replay, state merging and room lifecycle.

Modelling conventions:
* `DateTime<Utc>` timestamps are naturals counting milliseconds since
  the epoch; each operation that reads `Utc::now()` takes the current
  time as an explicit `now : Nat` argument.
* `serde_json::Value` is the inductive `Json` below (numbers are
  modelled as integers, which covers every numeric value this module
  itself produces; objects are association lists).
* The `tokio::sync::broadcast` channel send in `broadcast_message` is
  modelled by appending to a `published` log field.
* u64 / i64 casts and subtraction are modelled with explicit `% 2^64`
  wrapping where the Rust code can wrap.
-/

set_option maxRecDepth 8000

namespace Coolslides

/-- `serde_json::Value`, with numbers restricted to integers (every
number the room module itself writes is an integer millisecond count or
an unsigned field). Objects are association lists of key/value pairs. -/
inductive Json where
  | null : Json
  | bool : Bool → Json
  | num : Int → Json
  | str : String → Json
  | arr : List Json → Json
  | obj : List (String × Json) → Json

/-- Lookup in a JSON object's association list (first match), the
`serde_json::Map::get` operation. -/
def jlookup (kvs : List (String × Json)) (k : String) : Option Json :=
  match kvs with
  | [] => none
  | (k', v) :: rest => if k' = k then some v else jlookup rest k

/-- Insert into a JSON object's association list, replacing the value in
place when the key is present (the `serde_json::Map::insert` operation;
iteration order of the underlying `BTreeMap` differs, but no claim here
depends on object iteration order). -/
def jinsert (kvs : List (String × Json)) (k : String) (v : Json) :
    List (String × Json) :=
  match kvs with
  | [] => [(k, v)]
  | (k', v') :: rest =>
      if k' = k then (k', v) :: rest else (k', v') :: jinsert rest k v

/-- `ClientRole` (serde `rename_all = "lowercase"`). -/
inductive ClientRole where
  | presenter : ClientRole
  | audience : ClientRole
deriving DecidableEq

/-- `EventData { name, data, client_id }`. -/
structure EventData where
  name : String
  data : Json
  client_id : String

/-- `RoomMessage` (serde internally tagged with `tag = "type"`,
variant names `rename_all = "camelCase"`). Timestamps are epoch
milliseconds (`chrono::serde::ts_milliseconds`). -/
inductive RoomMessage where
  | join : ClientRole → String → RoomMessage
  | event : EventData → Nat → RoomMessage
  | state : Json → Nat → RoomMessage
  | ack : String → RoomMessage
  | heartbeat : RoomMessage

/-- `RecordedMessage { message, recorded_at, session_time }`;
`session_time` is u64 milliseconds since session start. -/
structure RecordedMessage where
  message : RoomMessage
  recorded_at : Nat
  session_time : Nat

/-- `PresenterState` (serde derive without any rename attribute, so its
JSON field names stay snake_case). -/
structure PresenterState where
  current_slide : String
  current_fragment : Nat
  deck_title : String
  total_slides : Nat

/-- `RoomClient` (the broadcast sender handle carried by the Rust struct
has no pure content and is omitted). -/
structure RoomClient where
  id : String
  role : ClientRole
  connected_at : Nat

/-- `Room`. `clients` models the `HashMap<String, RoomClient>` roster as
an association list; `message_history` models the `VecDeque` with the
front of the list as the oldest entry; `published` logs the messages
pushed into the `broadcast` channel by `broadcast_tx.send`. -/
structure Room where
  id : String
  created_at : Nat
  clients : List (String × RoomClient)
  message_history : List RoomMessage
  is_recording : Bool
  recorded_messages : List RecordedMessage
  state : Json
  published : List RoomMessage

/-- `Room::new`: fresh room, empty roster/history/recording, null state
(`Utc::now()` passed as `created`). -/
def Room.new (room_id : String) (created : Nat) : Room :=
  { id := room_id
    created_at := created
    clients := []
    message_history := []
    is_recording := false
    recorded_messages := []
    state := Json.null
    published := [] }

/-- `HashMap::insert` on an association list: replace the value in place
when the key is present, otherwise append. -/
def hmInsert {α : Type} (m : List (String × α)) (k : String) (v : α) :
    List (String × α) :=
  match m with
  | [] => [(k, v)]
  | (k', v') :: rest =>
      if k' = k then (k', v) :: rest else (k', v') :: hmInsert rest k v

/-- `HashMap::get` on an association list. -/
def hmGet {α : Type} (m : List (String × α)) (k : String) : Option α :=
  match m with
  | [] => none
  | (k', v) :: rest => if k' = k then some v else hmGet rest k

/-- `HashMap::remove` on an association list. -/
def hmRemove {α : Type} (m : List (String × α)) (k : String) :
    List (String × α) :=
  match m with
  | [] => []
  | (k', v) :: rest =>
      if k' = k then rest else (k', v) :: hmRemove rest k

/-- `Utc::now().signed_duration_since(created).num_milliseconds() as u64`:
the i64 difference cast to u64, i.e. taken modulo `2^64`. -/
def sessionTimeOf (now created : Nat) : Nat :=
  (((now : Int) - (created : Int)) % 18446744073709551616).toNat

/-- `Room::broadcast_message`: append to history, evict the front when
the length exceeds 1000, record a `RecordedMessage` when recording is
active, then publish on the broadcast channel. -/
def Room.broadcast_message (r : Room) (message : RoomMessage) (now : Nat) :
    Room :=
  let history0 := r.message_history ++ [message]
  let history := if 1000 < history0.length then history0.tail else history0
  let recorded :=
    if r.is_recording then
      r.recorded_messages ++
        [{ message := message
           recorded_at := now
           session_time := sessionTimeOf now r.created_at }]
    else r.recorded_messages
  { r with
    message_history := history
    recorded_messages := recorded
    published := r.published ++ [message] }

/-- `Room::add_client`: insert a roster entry, then broadcast a `Join`
message. -/
def Room.add_client (r : Room) (client_id : String) (role : ClientRole)
    (now : Nat) : Room :=
  let client : RoomClient :=
    { id := client_id, role := role, connected_at := now }
  let r := { r with clients := hmInsert r.clients client_id client }
  r.broadcast_message (RoomMessage.join role client_id) now

/-- `Room::remove_client`. -/
def Room.remove_client (r : Room) (client_id : String) : Room :=
  { r with clients := hmRemove r.clients client_id }

/-- `Room::update_state`: merge the key into the current state when it
is a JSON object, otherwise replace the state with a fresh single-key
object. -/
def Room.update_state (r : Room) (key : String) (value : Json) : Room :=
  match r.state with
  | Json.obj kvs => { r with state := Json.obj (jinsert kvs key value) }
  | _ => { r with state := Json.obj [(key, value)] }

/-- `serde_json::to_value(PresenterState)`: a JSON object with the four
snake_case fields (in the `BTreeMap` key order of `serde_json::Map`). -/
def PresenterState.toJson (ps : PresenterState) : Json :=
  Json.obj
    [("current_fragment", Json.num ps.current_fragment),
     ("current_slide", Json.str ps.current_slide),
     ("deck_title", Json.str ps.deck_title),
     ("total_slides", Json.num ps.total_slides)]

/-- Decode a JSON value as a string (serde `String` deserialization). -/
def jStr? (j : Json) : Option String :=
  match j with
  | Json.str s => some s
  | _ => none

/-- Decode a JSON value as a u32 (serde `u32` deserialization: a
nonnegative integer below `2^32`, i.e. 4294967296). -/
def jU32? (j : Json) : Option Nat :=
  match j with
  | Json.num (Int.ofNat n) => if n < 4294967296 then some n else none
  | _ => none

/-- `serde_json::from_value::<PresenterState>`: a JSON object with the
four snake_case fields of matching types (unknown fields are ignored,
serde's default), or — because serde_json's `deserialize_struct` routes
`Value::Array` to the derived `visit_seq`, and its `visit_array`
rejects arrays with missing or leftover elements — a JSON array of
exactly the four field values in declaration order. -/
def PresenterState.fromJson? (j : Json) : Option PresenterState :=
  match j with
  | Json.obj kvs => do
      let cs ← jlookup kvs "current_slide" >>= jStr?
      let cf ← jlookup kvs "current_fragment" >>= jU32?
      let dt ← jlookup kvs "deck_title" >>= jStr?
      let ts ← jlookup kvs "total_slides" >>= jU32?
      some { current_slide := cs, current_fragment := cf,
             deck_title := dt, total_slides := ts }
  | Json.arr [a, b, c, d] => do
      let cs ← jStr? a
      let cf ← jU32? b
      let dt ← jStr? c
      let ts ← jU32? d
      some { current_slide := cs, current_fragment := cf,
             deck_title := dt, total_slides := ts }
  | _ => none

/-- `Room::sync_presenter_state`: replace the state wholesale with the
serialized `PresenterState` (`serde_json::to_value` cannot fail on this
struct, so the `unwrap_or(Null)` fallback is unreachable). -/
def Room.sync_presenter_state (r : Room) (presenter_state : PresenterState) :
    Room :=
  { r with state := presenter_state.toJson }

/-- `Room::handle_event`: wrap the event into a message, apply the
special-name state side effect, then broadcast. -/
def Room.handle_event (r : Room) (ev : EventData) (now : Nat) : Room :=
  let message := RoomMessage.event ev now
  let r :=
    if ev.name = "slide:change" then
      r.update_state "currentSlide" ev.data
    else if ev.name = "fragment:change" then
      r.update_state "currentFragment" ev.data
    else if ev.name = "presenter:sync" then
      match PresenterState.fromJson? ev.data with
      | some ps => r.sync_presenter_state ps
      | none => r
    else r
  r.broadcast_message message now

/-- `Room::start_recording`: set the flag and clear the previous
recording. -/
def Room.start_recording (r : Room) : Room :=
  { r with is_recording := true, recorded_messages := [] }

/-- `Room::stop_recording`. -/
def Room.stop_recording (r : Room) : Room :=
  { r with is_recording := false }

/-- `Room::get_recorded_messages`. -/
def Room.get_recorded_messages (r : Room) : List RecordedMessage :=
  r.recorded_messages

/-! ### JSON serialization (`serde_json::to_string`) -/

/-- Decimal digit characters. -/
def digitChar (n : Nat) : Char :=
  match n with
  | 0 => '0' | 1 => '1' | 2 => '2' | 3 => '3' | 4 => '4'
  | 5 => '5' | 6 => '6' | 7 => '7' | 8 => '8' | _ => '9'

/-- Decimal digits of a natural number, most significant first. -/
def natDigits (n : Nat) : List Char :=
  if _h : n < 10 then [digitChar n]
  else natDigits (n / 10) ++ [digitChar (n % 10)]
termination_by n
decreasing_by exact Nat.div_lt_self (by omega) (by omega)

/-- Decimal rendering of an integer. -/
def renderInt (n : Int) : List Char :=
  if n < 0 then '-' :: natDigits n.natAbs else natDigits n.natAbs

/-- Lowercase hexadecimal digit characters. -/
def hexChar (n : Nat) : Char :=
  match n with
  | 0 => '0' | 1 => '1' | 2 => '2' | 3 => '3' | 4 => '4'
  | 5 => '5' | 6 => '6' | 7 => '7' | 8 => '8' | 9 => '9'
  | 10 => 'a' | 11 => 'b' | 12 => 'c' | 13 => 'd' | 14 => 'e' | _ => 'f'

/-- serde_json's string-character escaping: short escapes for quote,
backslash and the usual control characters, `\u00xx` for the remaining
control characters, everything else verbatim. -/
def escapeChar (c : Char) : List Char :=
  if c = '"' then ['\\', '"']
  else if c = '\\' then ['\\', '\\']
  else if c = Char.ofNat 8 then ['\\', 'b']
  else if c = '\t' then ['\\', 't']
  else if c = '\n' then ['\\', 'n']
  else if c = Char.ofNat 12 then ['\\', 'f']
  else if c = '\r' then ['\\', 'r']
  else if c.toNat < 32 then
    ['\\', 'u', '0', '0', hexChar (c.toNat / 16), hexChar (c.toNat % 16)]
  else [c]

/-- JSON string literal rendering: quoted, with each character escaped. -/
def renderStr (s : String) : List Char :=
  '"' :: ((s.data.map escapeChar).flatten ++ ['"'])

mutual

/-- Compact JSON rendering (`serde_json::to_string`), as a character
list. -/
def renderJsonL : Json → List Char
  | Json.null => ['n', 'u', 'l', 'l']
  | Json.bool true => ['t', 'r', 'u', 'e']
  | Json.bool false => ['f', 'a', 'l', 's', 'e']
  | Json.num n => renderInt n
  | Json.str s => renderStr s
  | Json.arr xs => '[' :: (renderArr xs ++ [']'])
  | Json.obj kvs => '\x7b' :: (renderObj kvs ++ ['\x7d'])

/-- Comma-separated rendering of array elements. -/
def renderArr : List Json → List Char
  | [] => []
  | [x] => renderJsonL x
  | x :: xs => renderJsonL x ++ (',' :: renderArr xs)

/-- Comma-separated rendering of object entries (`"key":value`). -/
def renderObj : List (String × Json) → List Char
  | [] => []
  | [(k, v)] => renderStr k ++ (':' :: renderJsonL v)
  | (k, v) :: kvs =>
      (renderStr k ++ (':' :: renderJsonL v)) ++ (',' :: renderObj kvs)

end

/-- `serde_json::to_string` as a `String`. -/
def renderJson (j : Json) : String := ⟨renderJsonL j⟩

/-- Serialization of `ClientRole` (`rename_all = "lowercase"`). -/
def ClientRole.toJson : ClientRole → Json
  | ClientRole.presenter => Json.str "presenter"
  | ClientRole.audience => Json.str "audience"

/-- Serialization of `EventData` (derived, fields in declaration
order). -/
def EventData.toJson (ev : EventData) : Json :=
  Json.obj
    [("name", Json.str ev.name),
     ("data", ev.data),
     ("client_id", Json.str ev.client_id)]

/-- Serialization of `RoomMessage`: internally tagged with `"type"`,
camelCase variant names, then the variant's fields in declaration
order; timestamps serialize as epoch-millisecond numbers. -/
def RoomMessage.toJson : RoomMessage → Json
  | RoomMessage.join role client_id =>
      Json.obj
        [("type", Json.str "join"),
         ("role", role.toJson),
         ("client_id", Json.str client_id)]
  | RoomMessage.event ev timestamp =>
      Json.obj
        [("type", Json.str "event"),
         ("event", ev.toJson),
         ("timestamp", Json.num timestamp)]
  | RoomMessage.state data timestamp =>
      Json.obj
        [("type", Json.str "state"),
         ("data", data),
         ("timestamp", Json.num timestamp)]
  | RoomMessage.ack i =>
      Json.obj
        [("type", Json.str "ack"),
         ("id", Json.str i)]
  | RoomMessage.heartbeat =>
      Json.obj [("type", Json.str "heartbeat")]

/-- Serialization of `RecordedMessage` (derived, fields in declaration
order). -/
def RecordedMessage.toJson (recorded : RecordedMessage) : Json :=
  Json.obj
    [("message", recorded.message.toJson),
     ("recorded_at", Json.num recorded.recorded_at),
     ("session_time", Json.num recorded.session_time)]

/-- `Vec::<String>::join(sep)` on character lists: the pieces
interleaved with single separator characters (empty for an empty
vector). -/
def joinSep (sep : Char) : List (List Char) → List Char
  | [] => []
  | [l] => l
  | l :: ls => l ++ sep :: joinSep sep ls

/-- `Room::export_recording`: one JSON-serialized `RecordedMessage` per
line, joined with newlines. -/
def Room.export_recording (r : Room) : String :=
  ⟨joinSep '\n'
      (r.get_recorded_messages.map (fun recorded => renderJsonL recorded.toJson))⟩

/-! ### JSON deserialization at the value level (serde derives) -/

/-- Deserialization of `ClientRole` from a JSON value. -/
def ClientRole.fromJson? (j : Json) : Option ClientRole :=
  match j with
  | Json.str s =>
      if s = "presenter" then some ClientRole.presenter
      else if s = "audience" then some ClientRole.audience
      else none
  | _ => none

/-- `chrono::serde::ts_milliseconds` deserialization: an i64
millisecond count (timestamps in this model are nonnegative naturals,
so a negative count is not representable and rejected; the bound is
`2^63`, i.e. `i64::MAX + 1`). -/
def jTimestamp? (j : Json) : Option Nat :=
  match j with
  | Json.num (Int.ofNat n) =>
      if n < 9223372036854775808 then some n else none
  | _ => none

/-- serde `u64` deserialization: a nonnegative integer below `2^64`,
i.e. 18446744073709551616. -/
def jU64? (j : Json) : Option Nat :=
  match j with
  | Json.num (Int.ofNat n) =>
      if n < 18446744073709551616 then some n else none
  | _ => none

/-- Deserialization of `EventData` from a JSON value. Only the
object (`visit_map`) case is modelled: in this development the decoder
is applied solely to `EventData.toJson` outputs, which are objects
(serde's struct-from-array `visit_seq` case never arises there). -/
def EventData.fromJson? (j : Json) : Option EventData :=
  match j with
  | Json.obj kvs => do
      let name ← jlookup kvs "name" >>= jStr?
      let data ← jlookup kvs "data"
      let client_id ← jlookup kvs "client_id" >>= jStr?
      some { name := name, data := data, client_id := client_id }
  | _ => none

/-- Deserialization of `RoomMessage` from a JSON value (internally
tagged: dispatch on the `"type"` field). -/
def RoomMessage.fromJson? (j : Json) : Option RoomMessage :=
  match j with
  | Json.obj kvs => do
      let tag ← jlookup kvs "type" >>= jStr?
      if tag = "join" then do
        let role ← jlookup kvs "role" >>= ClientRole.fromJson?
        let client_id ← jlookup kvs "client_id" >>= jStr?
        some (RoomMessage.join role client_id)
      else if tag = "event" then do
        let ev ← jlookup kvs "event" >>= EventData.fromJson?
        let timestamp ← jlookup kvs "timestamp" >>= jTimestamp?
        some (RoomMessage.event ev timestamp)
      else if tag = "state" then do
        let data ← jlookup kvs "data"
        let timestamp ← jlookup kvs "timestamp" >>= jTimestamp?
        some (RoomMessage.state data timestamp)
      else if tag = "ack" then do
        let i ← jlookup kvs "id" >>= jStr?
        some (RoomMessage.ack i)
      else if tag = "heartbeat" then
        some RoomMessage.heartbeat
      else none
  | _ => none

/-- Deserialization of `RecordedMessage` from a JSON value. Only the
object (`visit_map`) case is modelled: in this development the decoder
is applied solely to `RecordedMessage.toJson` outputs, which are
objects (serde's struct-from-array `visit_seq` case never arises
there). -/
def RecordedMessage.fromJson? (j : Json) : Option RecordedMessage :=
  match j with
  | Json.obj kvs => do
      let message ← jlookup kvs "message" >>= RoomMessage.fromJson?
      let recorded_at ← jlookup kvs "recorded_at" >>= jTimestamp?
      let session_time ← jlookup kvs "session_time" >>= jU64?
      some { message := message, recorded_at := recorded_at,
             session_time := session_time }
  | _ => none

/-! ### Replay -/

/-- u64 wrapping subtraction: `a - b` on u64 operands as compiled in
release mode (two's-complement wrap, i.e. modulo `2^64`). -/
def u64Sub (a b : Nat) : Nat :=
  (((a : Int) - (b : Int)) % 18446744073709551616).toNat

/-- Rust `as u64` applied to a nonnegative-or-negative f64 value:
saturating truncation toward zero (f64 arithmetic modeled on ℚ). -/
def ratAsU64 (q : ℚ) : Nat :=
  if q ≤ 0 then 0 else min (Int.toNat q.floor) 18446744073709551615

/-- The sleep delays of `Room::replay_recording`, in loop order: for
each message, `((recorded.session_time - start_time) as f64 /
time_compression) as u64` where `start_time` is the first message's
`session_time`. -/
def replayDelays (messages : List RecordedMessage) (time_compression : ℚ) :
    List Nat :=
  match messages with
  | [] => []
  | m0 :: _ =>
      messages.map (fun recorded =>
        ratAsU64
          ((u64Sub recorded.session_time m0.session_time : ℚ) /
            time_compression))

/-- Total time slept before the i-th recorded message is broadcast: the
loop sleeps each delay in sequence, so this is the sum of the delays up
to and including the i-th. -/
def totalDelayBefore (messages : List RecordedMessage) (c : ℚ) (i : Nat) :
    Nat :=
  ((replayDelays messages c).take (i + 1)).sum

/-- State effect of `Room::replay_recording`: early-return on an empty
list, otherwise each recorded message is re-broadcast through
`broadcast_message` (never through `handle_event`); `nows` supplies the
time at which each broadcast happens; `time_compression` only shapes
the sleeps, which carry no state. -/
def Room.replay_recording (r : Room) (messages : List RecordedMessage)
    (_time_compression : ℚ) (nows : List Nat) : Room :=
  if messages.isEmpty then r
  else
    (messages.zip nows).foldl
      (fun acc p => acc.broadcast_message p.1.message p.2) r

/-- A sequence of `broadcast_message` calls, each with its own time. -/
def Room.broadcastAll (r : Room) (ps : List (RoomMessage × Nat)) : Room :=
  ps.foldl (fun acc p => acc.broadcast_message p.1 p.2) r

/-! ### RoomManager -/

/-- `RoomManager`: the registry mapping room ids to rooms. -/
structure RoomManager where
  rooms : List (String × Room)

/-- `RoomManager::new`. -/
def RoomManager.new : RoomManager := ⟨[]⟩

/-- `RoomManager::get_room`. -/
def RoomManager.get_room (m : RoomManager) (room_id : String) : Option Room :=
  hmGet m.rooms room_id

/-- `RoomManager::create_room` (the freshly generated `Uuid` string and
`Utc::now()` passed as parameters). -/
def RoomManager.create_room (m : RoomManager) (room_id : String) (now : Nat) :
    String × RoomManager :=
  (room_id, ⟨hmInsert m.rooms room_id (Room.new room_id now)⟩)

/-- `RoomManager::ensure_room`: return the id unchanged when the room
exists, otherwise register a fresh room under it. -/
def RoomManager.ensure_room (m : RoomManager) (room_id : String) (now : Nat) :
    String × RoomManager :=
  if (m.get_room room_id).isSome then (room_id, m)
  else (room_id, ⟨hmInsert m.rooms room_id (Room.new room_id now)⟩)

/-- `RoomManager::remove_room`. -/
def RoomManager.remove_room (m : RoomManager) (room_id : String) :
    RoomManager :=
  ⟨hmRemove m.rooms room_id⟩

/-- `Utc::now().signed_duration_since(created).num_minutes()`: the i64
millisecond difference divided by 60000, truncating toward zero. -/
def minutesSince (now created : Nat) : Int :=
  Int.tdiv ((now : Int) - (created : Int)) 60000

/-- `RoomManager::cleanup_empty_rooms`: remove every room whose roster
is empty and whose age in whole minutes exceeds 30; the code collects
such ids and removes them, which on the registry list is a filter. -/
def RoomManager.cleanup_empty_rooms (m : RoomManager) (now : Nat) :
    RoomManager :=
  ⟨m.rooms.filter (fun p =>
      !(p.2.clients.isEmpty &&
        decide ((30 : Int) < minutesSince now p.2.created_at)))⟩

/-! ### Auxiliary definitions used by the theorems -/

/-- Split a character list at every occurrence of `sep` (the line
structure of a newline-joined export). -/
def splitOnChar (sep : Char) : List Char → List (List Char)
  | [] => [[]]
  | c :: rest =>
      match splitOnChar sep rest with
      | [] => [[]]
      | l :: ls => if c = sep then [] :: l :: ls else (c :: l) :: ls

/-- The timestamps embedded in a message fit in the i64 millisecond
range used by `chrono::serde::ts_milliseconds` (true of every message
the devserver constructs). -/
def RoomMessage.timestampsOk : RoomMessage → Bool
  | RoomMessage.event _ t => decide (t < 9223372036854775808)
  | RoomMessage.state _ t => decide (t < 9223372036854775808)
  | _ => true

/-- `Value::as_object_mut().is_some()`: whether a JSON value is an
object. -/
def Json.isObj : Json → Bool
  | Json.obj _ => true
  | _ => false

/-- Key lookup on a JSON value (`none` on non-objects). -/
def Json.objLookup (j : Json) (k : String) : Option Json :=
  match j with
  | Json.obj kvs => jlookup kvs k
  | _ => none

/-- A three-message recording at session times 0ms, 1000ms, 2000ms: the
input on which the replay sleep accounting diverges from the intended
timing. -/
def replayBugInput : List RecordedMessage :=
  [{ message := RoomMessage.heartbeat, recorded_at := 0, session_time := 0 },
   { message := RoomMessage.heartbeat, recorded_at := 1000,
     session_time := 1000 },
   { message := RoomMessage.heartbeat, recorded_at := 2000,
     session_time := 2000 }]

/-- A concrete presenter state for the state-merge counterexample. -/
def presenterExample : PresenterState :=
  { current_slide := "s1", current_fragment := 0, deck_title := "deck",
    total_slides := 4 }

/-- A room whose state was just replaced by a synced presenter state. -/
def roomAfterSync : Room :=
  { Room.new "r" 0 with state := presenterExample.toJson }

/-- A room created at time 0 whose roster has been empty ever since
creation. -/
def staleEmptyRoom : Room := Room.new "stale" 0

/-- A registry holding only that stale empty room. -/
def staleManager : RoomManager := ⟨[("stale", staleEmptyRoom)]⟩

/-- An old room that still has a connected client. -/
def busyRoom : Room :=
  (Room.new "busy" 0).add_client "c1" ClientRole.audience 0

/-- A registry holding one stale empty room and one old busy room. -/
def mixedManager : RoomManager :=
  ⟨[("stale", staleEmptyRoom), ("busy", busyRoom)]⟩

/-! ### Broadcast lemmas -/

@[simp] lemma Room.broadcast_message_state (r : Room) (m : RoomMessage)
    (t : Nat) : (r.broadcast_message m t).state = r.state := rfl

@[simp] lemma Room.broadcast_message_is_recording (r : Room)
    (m : RoomMessage) (t : Nat) :
    (r.broadcast_message m t).is_recording = r.is_recording := rfl

@[simp] lemma Room.broadcast_message_created_at (r : Room) (m : RoomMessage)
    (t : Nat) : (r.broadcast_message m t).created_at = r.created_at := rfl

@[simp] lemma Room.broadcast_message_clients (r : Room) (m : RoomMessage)
    (t : Nat) : (r.broadcast_message m t).clients = r.clients := rfl

@[simp] lemma Room.broadcast_message_id (r : Room) (m : RoomMessage)
    (t : Nat) : (r.broadcast_message m t).id = r.id := rfl

@[simp] lemma Room.broadcast_message_published (r : Room) (m : RoomMessage)
    (t : Nat) : (r.broadcast_message m t).published = r.published ++ [m] :=
  rfl

lemma Room.broadcast_message_recorded (r : Room) (m : RoomMessage)
    (t : Nat) :
    (r.broadcast_message m t).recorded_messages =
      r.recorded_messages ++
        (if r.is_recording then
          [{ message := m, recorded_at := t,
             session_time := sessionTimeOf t r.created_at }]
        else []) := by
  unfold Room.broadcast_message
  by_cases h : r.is_recording <;> simp [h]

lemma Room.broadcast_message_history (r : Room) (m : RoomMessage)
    (t : Nat) (h : r.message_history.length ≤ 1000) :
    (r.broadcast_message m t).message_history =
      (r.message_history ++ [m]).drop (r.message_history.length + 1 - 1000) := by
  show (if 1000 < (r.message_history ++ [m]).length then
          (r.message_history ++ [m]).tail
        else r.message_history ++ [m]) = _
  by_cases hlen : 1000 < (r.message_history ++ [m]).length
  · rw [if_pos hlen, ← List.drop_one]
    congr 1
    simp only [List.length_append, List.length_cons, List.length_nil] at hlen
    omega
  · rw [if_neg hlen]
    simp only [List.length_append, List.length_cons, List.length_nil] at hlen
    have h0 : r.message_history.length + 1 - 1000 = 0 := by omega
    rw [h0, List.drop_zero]

@[simp] lemma Room.broadcastAll_nil (r : Room) : r.broadcastAll [] = r := rfl

@[simp] lemma Room.broadcastAll_cons (r : Room) (p : RoomMessage × Nat)
    (ps : List (RoomMessage × Nat)) :
    r.broadcastAll (p :: ps) = (r.broadcast_message p.1 p.2).broadcastAll ps :=
  rfl

lemma Room.broadcastAll_state (ps : List (RoomMessage × Nat)) :
    ∀ r : Room, (r.broadcastAll ps).state = r.state := by
  induction ps with
  | nil => intro r; rfl
  | cons p ps ih => intro r; rw [Room.broadcastAll_cons, ih]; rfl

lemma Room.broadcastAll_is_recording (ps : List (RoomMessage × Nat)) :
    ∀ r : Room, (r.broadcastAll ps).is_recording = r.is_recording := by
  induction ps with
  | nil => intro r; rfl
  | cons p ps ih => intro r; rw [Room.broadcastAll_cons, ih]; rfl

lemma Room.broadcastAll_created_at (ps : List (RoomMessage × Nat)) :
    ∀ r : Room, (r.broadcastAll ps).created_at = r.created_at := by
  induction ps with
  | nil => intro r; rfl
  | cons p ps ih => intro r; rw [Room.broadcastAll_cons, ih]; rfl

lemma Room.broadcastAll_clients (ps : List (RoomMessage × Nat)) :
    ∀ r : Room, (r.broadcastAll ps).clients = r.clients := by
  induction ps with
  | nil => intro r; rfl
  | cons p ps ih => intro r; rw [Room.broadcastAll_cons, ih]; rfl

lemma Room.broadcastAll_published (ps : List (RoomMessage × Nat)) :
    ∀ r : Room, (r.broadcastAll ps).published =
      r.published ++ ps.map Prod.fst := by
  induction ps with
  | nil => intro r; simp
  | cons p ps ih => intro r; rw [Room.broadcastAll_cons, ih]; simp

lemma Room.broadcastAll_recorded (ps : List (RoomMessage × Nat)) :
    ∀ r : Room, (r.broadcastAll ps).recorded_messages =
      r.recorded_messages ++
        (if r.is_recording then
          ps.map (fun p =>
            ({ message := p.1, recorded_at := p.2,
               session_time := sessionTimeOf p.2 r.created_at } :
              RecordedMessage))
        else []) := by
  induction ps with
  | nil => intro r; by_cases h : r.is_recording <;> simp [h]
  | cons p ps ih =>
      intro r
      rw [Room.broadcastAll_cons, ih]
      by_cases h : r.is_recording <;>
        simp [h, Room.broadcast_message_recorded]

lemma drop_drop_append {α : Type} (l₁ l₂ : List α) (d e : Nat)
    (hd : d ≤ l₁.length) :
    (l₁.drop d ++ l₂).drop e = (l₁ ++ l₂).drop (d + e) := by
  rw [← List.drop_append_of_le_length hd, List.drop_drop]

lemma Room.broadcastAll_history (ps : List (RoomMessage × Nat)) :
    ∀ r : Room, r.message_history.length ≤ 1000 →
      (r.broadcastAll ps).message_history =
        (r.message_history ++ ps.map Prod.fst).drop
          (r.message_history.length + ps.length - 1000) := by
  induction ps with
  | nil =>
      intro r h
      simp [Nat.sub_eq_zero_of_le h]
  | cons p ps ih =>
      intro r h
      have h1 : (r.broadcast_message p.1 p.2).message_history.length ≤ 1000 := by
        rw [Room.broadcast_message_history r p.1 p.2 h, List.length_drop,
          List.length_append]
        simp
        omega
      rw [Room.broadcastAll_cons, ih _ h1,
        Room.broadcast_message_history r p.1 p.2 h, List.length_drop,
        List.length_append]
      rw [drop_drop_append _ _ _ _ (by simp; omega)]
      rw [List.append_assoc, List.singleton_append]
      simp only [List.map_cons, List.length_cons, List.length_append,
        List.length_nil, List.length_map]
      congr 1
      simp
      omega

lemma Room.broadcastAll_history_length (ps : List (RoomMessage × Nat))
    (r : Room) (h : r.message_history.length ≤ 1000) :
    (r.broadcastAll ps).message_history.length ≤ 1000 := by
  rw [Room.broadcastAll_history ps r h, List.length_drop]
  simp
  omega

/-! ### Line-splitting lemmas -/

lemma splitOnChar_ne_nil (sep : Char) (cs : List Char) :
    splitOnChar sep cs ≠ [] := by
  induction cs with
  | nil => simp [splitOnChar]
  | cons c rest ih =>
      simp only [splitOnChar]
      cases hs : splitOnChar sep rest with
      | nil => simp
      | cons l ls => by_cases hc : c = sep <;> simp [hc]

lemma splitOnChar_of_not_mem (sep : Char) (l : List Char) (h : sep ∉ l) :
    splitOnChar sep l = [l] := by
  induction l with
  | nil => rfl
  | cons c rest ih =>
      have hc : c ≠ sep := fun e => h (by simp [e])
      have hr : sep ∉ rest := fun m => h (List.mem_cons_of_mem _ m)
      simp only [splitOnChar, ih hr]
      simp [hc]

lemma splitOnChar_append (sep : Char) (l rest : List Char) (h : sep ∉ l) :
    splitOnChar sep (l ++ sep :: rest) = l :: splitOnChar sep rest := by
  induction l with
  | nil =>
      simp only [List.nil_append, splitOnChar]
      cases hs : splitOnChar sep rest with
      | nil => exact absurd hs (splitOnChar_ne_nil sep rest)
      | cons a as => simp
  | cons c l ih =>
      have hc : c ≠ sep := fun e => h (by simp [e])
      have hl : sep ∉ l := fun m => h (List.mem_cons_of_mem _ m)
      rw [List.cons_append]
      simp only [splitOnChar]
      rw [ih hl]
      simp [hc]

lemma splitOnChar_joinSep (sep : Char) (ls : List (List Char)) :
    ls ≠ [] → (∀ l ∈ ls, sep ∉ l) →
    splitOnChar sep (joinSep sep ls) = ls := by
  induction ls with
  | nil => intro h; exact absurd rfl h
  | cons l ls ih =>
      intro _ hm
      cases ls with
      | nil => exact splitOnChar_of_not_mem sep l (hm l (by simp))
      | cons l' ls' =>
          rw [show joinSep sep (l :: l' :: ls') =
                l ++ sep :: joinSep sep (l' :: ls') from rfl]
          rw [splitOnChar_append sep l _ (hm l (by simp))]
          rw [ih (by simp) (fun x hx => hm x (by simp [hx]))]

/-! ### The rendered JSON of a value contains no newline -/

lemma digitChar_ne_newline (n : Nat) : digitChar n ≠ '\n' := by
  unfold digitChar
  split <;> decide

lemma hexChar_ne_newline (n : Nat) : hexChar n ≠ '\n' := by
  unfold hexChar
  split <;> decide

lemma natDigits_ne_newline (n : Nat) : '\n' ∉ natDigits n := by
  induction n using Nat.strong_induction_on with
  | _ n ih =>
      rw [natDigits]
      by_cases h : n < 10
      · simp only [h, dif_pos, List.mem_singleton]
        exact Ne.symm (digitChar_ne_newline n)
      · simp only [h, dif_neg, not_false_iff, List.mem_append,
          List.mem_singleton]
        push_neg
        exact ⟨ih (n / 10) (Nat.div_lt_self (by omega) (by omega)),
          Ne.symm (digitChar_ne_newline (n % 10))⟩

lemma renderInt_ne_newline (n : Int) : '\n' ∉ renderInt n := by
  unfold renderInt
  by_cases h : n < 0
  · simp only [h, if_pos, List.mem_cons]
    push_neg
    exact ⟨by decide, natDigits_ne_newline _⟩
  · simp only [h, if_neg, not_false_iff]
    exact natDigits_ne_newline _

lemma escapeChar_ne_newline (c : Char) : '\n' ∉ escapeChar c := by
  unfold escapeChar
  split_ifs with h1 h2 h3 h4 h5 h6 h7 h8
  · decide
  · decide
  · decide
  · decide
  · decide
  · decide
  · decide
  · intro hmem
    simp only [List.mem_cons, List.not_mem_nil, or_false] at hmem
    rcases hmem with e | e | e | e | e | e
    · exact absurd e (by decide)
    · exact absurd e (by decide)
    · exact absurd e (by decide)
    · exact absurd e (by decide)
    · exact hexChar_ne_newline _ e.symm
    · exact hexChar_ne_newline _ e.symm
  · simp only [List.mem_singleton]
    exact fun e => h5 e.symm

lemma renderStr_ne_newline (s : String) : '\n' ∉ renderStr s := by
  unfold renderStr
  intro hmem
  rcases List.mem_cons.mp hmem with h | h
  · exact absurd h (by decide)
  rcases List.mem_append.mp h with h | h
  · rcases List.mem_flatten.mp h with ⟨l, hl, hcl⟩
    rcases List.mem_map.mp hl with ⟨c, _, rfl⟩
    exact escapeChar_ne_newline c hcl
  · exact absurd h (by decide)

mutual

theorem renderJsonL_ne_newline : (j : Json) → '\n' ∉ renderJsonL j
  | Json.null => by simp only [renderJsonL]; decide
  | Json.bool true => by simp only [renderJsonL]; decide
  | Json.bool false => by simp only [renderJsonL]; decide
  | Json.num n => by
      simp only [renderJsonL]
      exact renderInt_ne_newline n
  | Json.str s => by
      simp only [renderJsonL]
      exact renderStr_ne_newline s
  | Json.arr xs => by
      have h := renderArr_ne_newline xs
      simp only [renderJsonL, List.mem_cons, List.mem_append,
        List.mem_singleton]
      push_neg
      exact ⟨by decide, h, by decide⟩
  | Json.obj kvs => by
      have h := renderObj_ne_newline kvs
      simp only [renderJsonL, List.mem_cons, List.mem_append,
        List.mem_singleton]
      push_neg
      exact ⟨by decide, h, by decide⟩

theorem renderArr_ne_newline : (xs : List Json) → '\n' ∉ renderArr xs
  | [] => by simp [renderArr]
  | [x] => by
      simp only [renderArr]
      exact renderJsonL_ne_newline x
  | x :: y :: ys => by
      have h1 := renderJsonL_ne_newline x
      have h2 := renderArr_ne_newline (y :: ys)
      simp only [renderArr, List.mem_append, List.mem_cons]
      push_neg
      exact ⟨h1, by decide, h2⟩

theorem renderObj_ne_newline :
    (kvs : List (String × Json)) → '\n' ∉ renderObj kvs
  | [] => by simp [renderObj]
  | [(k, v)] => by
      have h1 := renderStr_ne_newline k
      have h2 := renderJsonL_ne_newline v
      simp only [renderObj, List.mem_append, List.mem_cons]
      push_neg
      exact ⟨h1, by decide, h2⟩
  | (k, v) :: (k', v') :: kvs => by
      have h1 := renderStr_ne_newline k
      have h2 := renderJsonL_ne_newline v
      have h3 := renderObj_ne_newline ((k', v') :: kvs)
      simp only [renderObj, List.mem_append, List.mem_cons]
      push_neg
      exact ⟨⟨h1, by decide, h2⟩, by decide, h3⟩

end

/-! ### Serialization/deserialization roundtrip at the JSON value level -/

lemma jTimestamp?_coe (t : Nat) (h : t < 2 ^ 63) :
    jTimestamp? (Json.num t) = some t := by
  have step : jTimestamp? (Json.num t)
      = if t < 9223372036854775808 then some t else none := rfl
  rw [step, if_pos (by omega)]

lemma jU64?_coe (t : Nat) (h : t < 2 ^ 64) :
    jU64? (Json.num t) = some t := by
  have step : jU64? (Json.num t)
      = if t < 18446744073709551616 then some t else none := rfl
  rw [step, if_pos (by omega)]

lemma ClientRole.roleRoundtrip (role : ClientRole) :
    ClientRole.fromJson? role.toJson = some role := by
  cases role <;> rfl

lemma EventData.eventDataRoundtrip (ev : EventData) :
    EventData.fromJson? ev.toJson = some ev := rfl

lemma RoomMessage.messageRoundtrip (m : RoomMessage) (h : m.timestampsOk = true) :
    RoomMessage.fromJson? m.toJson = some m := by
  cases m with
  | join role client_id => cases role <;> rfl
  | event ev t =>
      have ht : t < 2 ^ 63 := by
        have : RoomMessage.timestampsOk (RoomMessage.event ev t)
            = decide (t < 9223372036854775808) := rfl
        rw [this, decide_eq_true_eq] at h
        omega
      have step : RoomMessage.fromJson? (RoomMessage.event ev t).toJson
          = (jTimestamp? (Json.num t)).bind
              (fun ts => some (RoomMessage.event ev ts)) := rfl
      rw [step, jTimestamp?_coe t ht]
      rfl
  | state d t =>
      have ht : t < 2 ^ 63 := by
        have : RoomMessage.timestampsOk (RoomMessage.state d t)
            = decide (t < 9223372036854775808) := rfl
        rw [this, decide_eq_true_eq] at h
        omega
      have step : RoomMessage.fromJson? (RoomMessage.state d t).toJson
          = (jTimestamp? (Json.num t)).bind
              (fun ts => some (RoomMessage.state d ts)) := rfl
      rw [step, jTimestamp?_coe t ht]
      rfl
  | ack i => rfl
  | heartbeat => rfl

lemma RecordedMessage.recordedRoundtrip (rec : RecordedMessage)
    (h1 : rec.message.timestampsOk = true) (h2 : rec.recorded_at < 2 ^ 63)
    (h3 : rec.session_time < 2 ^ 64) :
    RecordedMessage.fromJson? rec.toJson = some rec := by
  have step : RecordedMessage.fromJson? rec.toJson
      = (RoomMessage.fromJson? rec.message.toJson).bind (fun msg =>
          (jTimestamp? (Json.num rec.recorded_at)).bind (fun ra =>
            (jU64? (Json.num rec.session_time)).bind (fun st =>
              some { message := msg, recorded_at := ra,
                     session_time := st }))) := rfl
  rw [step, RoomMessage.messageRoundtrip rec.message h1, jTimestamp?_coe _ h2,
    jU64?_coe _ h3]
  rfl

/-! ### Session time lemmas -/

lemma sessionTimeOf_lt (now created : Nat) :
    sessionTimeOf now created < 2 ^ 64 := by
  unfold sessionTimeOf
  have h1 := Int.emod_lt_of_pos ((now : Int) - created)
    (show (0 : Int) < 18446744073709551616 by norm_num)
  have h2 := Int.emod_nonneg ((now : Int) - created)
    (show (18446744073709551616 : Int) ≠ 0 by norm_num)
  omega

lemma sessionTimeOf_eq (now created : Nat) (h1 : created ≤ now)
    (h2 : now < 2 ^ 63) :
    sessionTimeOf now created = now - created := by
  unfold sessionTimeOf
  rw [Int.emod_eq_of_lt (by omega) (by omega)]
  omega

lemma sessionTimeOf_mono (a b created : Nat) (hc : created ≤ a) (hab : a ≤ b)
    (hb : b < 2 ^ 63) :
    sessionTimeOf a created ≤ sessionTimeOf b created := by
  rw [sessionTimeOf_eq a created hc (by omega),
    sessionTimeOf_eq b created (le_trans hc hab) hb]
  omega

lemma chain'_sessionTime (created : Nat) :
    ∀ (l : List (RoomMessage × Nat)),
      (∀ p ∈ l, created ≤ p.2 ∧ p.2 < 2 ^ 63) →
      List.Chain' (· ≤ ·) (l.map Prod.snd) →
      List.Chain' (· ≤ ·) (l.map (fun p => sessionTimeOf p.2 created))
  | [], _, _ => by simp
  | [p], _, _ => by simp
  | p :: q :: l, hmem, hch => by
      rw [List.map_cons, List.map_cons, List.chain'_cons] at hch ⊢
      have hp := hmem p (by simp)
      have hq := hmem q (by simp)
      refine ⟨sessionTimeOf_mono p.2 q.2 created hp.1 hch.1 hq.2, ?_⟩
      have := chain'_sessionTime created (q :: l)
        (fun x hx => hmem x (by simp at hx ⊢; tauto)) hch.2
      simpa using this

/-! ### Object-merge lemmas -/

lemma jlookup_jinsert_self (kvs : List (String × Json)) (k : String)
    (v : Json) : jlookup (jinsert kvs k v) k = some v := by
  induction kvs with
  | nil => simp [jinsert, jlookup]
  | cons p rest ih =>
      obtain ⟨k', v'⟩ := p
      by_cases h : k' = k
      · simp [jinsert, h, jlookup]
      · simp [jinsert, h, jlookup, ih]

lemma jlookup_jinsert_other (kvs : List (String × Json)) (k k' : String)
    (v : Json) (hne : k' ≠ k) :
    jlookup (jinsert kvs k v) k' = jlookup kvs k' := by
  induction kvs with
  | nil => simp [jinsert, jlookup, Ne.symm hne]
  | cons p rest ih =>
      obtain ⟨k0, v0⟩ := p
      by_cases h : k0 = k
      · subst h
        simp [jinsert, jlookup, Ne.symm hne]
      · simp [jinsert, h, jlookup, ih]

/-! ### update_state / handle_event case lemmas -/

lemma Room.update_state_obj (r : Room) (k : String) (v : Json)
    (kvs : List (String × Json)) (h : r.state = Json.obj kvs) :
    r.update_state k v = { r with state := Json.obj (jinsert kvs k v) } := by
  unfold Room.update_state
  rw [h]

lemma Room.update_state_not_obj (r : Room) (k : String) (v : Json)
    (h : r.state.isObj = false) :
    r.update_state k v = { r with state := Json.obj [(k, v)] } := by
  unfold Room.update_state
  cases hs : r.state <;> simp_all [Json.isObj]

lemma Room.handle_event_slide (r : Room) (ev : EventData) (now : Nat)
    (h : ev.name = "slide:change") :
    r.handle_event ev now =
      (r.update_state "currentSlide" ev.data).broadcast_message
        (RoomMessage.event ev now) now := by
  simp [Room.handle_event, h]

lemma Room.handle_event_fragment (r : Room) (ev : EventData) (now : Nat)
    (h : ev.name = "fragment:change") :
    r.handle_event ev now =
      (r.update_state "currentFragment" ev.data).broadcast_message
        (RoomMessage.event ev now) now := by
  simp [Room.handle_event, h]

lemma Room.handle_event_presenter_some (r : Room) (ev : EventData)
    (now : Nat) (ps : PresenterState) (h : ev.name = "presenter:sync")
    (hd : PresenterState.fromJson? ev.data = some ps) :
    r.handle_event ev now =
      (r.sync_presenter_state ps).broadcast_message
        (RoomMessage.event ev now) now := by
  simp [Room.handle_event, h, hd]

lemma Room.handle_event_presenter_none (r : Room) (ev : EventData)
    (now : Nat) (h : ev.name = "presenter:sync")
    (hd : PresenterState.fromJson? ev.data = none) :
    r.handle_event ev now =
      r.broadcast_message (RoomMessage.event ev now) now := by
  simp [Room.handle_event, h, hd]

/-! ### Replay lemmas -/

lemma Room.replay_recording_eq_broadcastAll (r : Room)
    (messages : List RecordedMessage) (c : ℚ) (nows : List Nat) :
    r.replay_recording messages c nows =
      r.broadcastAll ((messages.zip nows).map (fun q => (q.1.message, q.2))) := by
  unfold Room.replay_recording Room.broadcastAll
  by_cases h : messages.isEmpty
  · rw [if_pos h]
    rw [List.isEmpty_iff] at h
    subst h
    simp
  · rw [if_neg h, List.foldl_map]

/-! ### Registry lemmas -/

lemma hmGet_eq_none_iff {α : Type} (m : List (String × α)) (k : String) :
    hmGet m k = none ↔ k ∉ m.map Prod.fst := by
  induction m with
  | nil => simp [hmGet]
  | cons p rest ih =>
      obtain ⟨k', v⟩ := p
      by_cases h : k' = k
      · subst h
        simp [hmGet]
      · simp [hmGet, h, ih, Ne.symm h]

lemma hmGet_hmInsert_self {α : Type} (m : List (String × α)) (k : String)
    (v : α) : hmGet (hmInsert m k v) k = some v := by
  induction m with
  | nil => simp [hmInsert, hmGet]
  | cons p rest ih =>
      obtain ⟨k', v'⟩ := p
      by_cases h : k' = k
      · simp [hmInsert, h, hmGet]
      · simp [hmInsert, h, hmGet, ih]

lemma hmInsert_of_absent {α : Type} (m : List (String × α)) (k : String)
    (v : α) (h : hmGet m k = none) : hmInsert m k v = m ++ [(k, v)] := by
  induction m with
  | nil => simp [hmInsert]
  | cons p rest ih =>
      obtain ⟨k', v'⟩ := p
      by_cases hk : k' = k
      · rw [hmGet, if_pos hk] at h
        exact absurd h (by simp)
      · rw [hmGet, if_neg hk] at h
        simp [hmInsert, hk, ih h]

lemma hmGet_mem_keys {α : Type} (m : List (String × α)) (k : String)
    (h : (hmGet m k).isSome) : k ∈ m.map Prod.fst := by
  induction m with
  | nil => simp [hmGet] at h
  | cons p rest ih =>
      obtain ⟨k', v⟩ := p
      by_cases hk : k' = k
      · simp [hk]
      · rw [hmGet, if_neg hk] at h
        simp [ih h]

/-! ### Claim theorems -/

/-- C1: after every `broadcast_message` call the history length is at
most 1000; when an append would exceed that capacity exactly the single
oldest (front) entry is evicted; and from a fresh room an arbitrary
broadcast sequence leaves exactly the most recent 1000 messages, in
broadcast order. -/
theorem history_bounded_fifo (idr : String) (created : Nat) (r : Room)
    (ps : List (RoomMessage × Nat)) (h : r.message_history.length ≤ 1000) :
    (∀ n : Nat,
        ((r.broadcastAll (ps.take n)).message_history).length ≤ 1000) ∧
    (∀ (m : RoomMessage) (t : Nat), r.message_history.length = 1000 →
        (r.broadcast_message m t).message_history =
          (r.message_history ++ [m]).tail) ∧
    ((Room.new idr created).broadcastAll ps).message_history =
      (ps.map Prod.fst).drop (ps.length - 1000) := by
  refine ⟨?_, ?_, ?_⟩
  · intro n
    exact Room.broadcastAll_history_length (ps.take n) r h
  · intro m t hl
    rw [Room.broadcast_message_history r m t h, hl]
    norm_num [List.drop_one]
  · have hs := Room.broadcastAll_history ps (Room.new idr created)
      (by simp [Room.new])
    simpa [Room.new] using hs

/-- C1 witness: a fresh room satisfies the length hypothesis, and two
broadcasts on it leave exactly those two messages. -/
theorem history_bounded_fifo_witness :
    (Room.new "w" 0).message_history.length ≤ 1000 ∧
    ((Room.new "w" 0).broadcastAll
        [(RoomMessage.heartbeat, 1), (RoomMessage.ack "a", 2)]).message_history
      = [RoomMessage.heartbeat, RoomMessage.ack "a"] := by
  have h := history_bounded_fifo "w" 0 (Room.new "w" 0)
    [(RoomMessage.heartbeat, 1), (RoomMessage.ack "a", 2)]
    (by simp [Room.new])
  exact ⟨by simp [Room.new], by simpa using h.2.2⟩

/-- C9: `start_recording` sets the flag, clears any prior recording,
and afterwards exactly the messages broadcast after the call accumulate
as the new take. -/
theorem start_recording_resets (r : Room) (ps : List (RoomMessage × Nat)) :
    (r.start_recording).is_recording = true ∧
    (r.start_recording).recorded_messages = [] ∧
    ((r.start_recording).broadcastAll ps).recorded_messages =
      ps.map (fun p =>
        ({ message := p.1, recorded_at := p.2,
           session_time := sessionTimeOf p.2 r.created_at } :
          RecordedMessage)) := by
  refine ⟨rfl, rfl, ?_⟩
  rw [Room.broadcastAll_recorded]
  simp [Room.start_recording]

/-- C4: replay re-broadcasts through `broadcast_message` only, so
`current_state` is untouched, while the replayed messages are appended
to the (bounded) history and re-recorded when recording is active. -/
theorem replay_leaves_state_unchanged (r : Room)
    (messages : List RecordedMessage) (c : ℚ) (nows : List Nat)
    (hlen : messages.length ≤ nows.length)
    (hh : r.message_history.length ≤ 1000) :
    (r.replay_recording messages c nows).state = r.state ∧
    (r.replay_recording messages c nows).message_history =
      (r.message_history ++ messages.map (fun q => q.message)).drop
        (r.message_history.length + messages.length - 1000) ∧
    (r.replay_recording messages c nows).recorded_messages =
      r.recorded_messages ++
        (if r.is_recording then
          (messages.zip nows).map (fun q =>
            ({ message := q.1.message, recorded_at := q.2,
               session_time := sessionTimeOf q.2 r.created_at } :
              RecordedMessage))
        else []) := by
  rw [Room.replay_recording_eq_broadcastAll]
  have hz : (messages.zip nows).map Prod.fst = messages :=
    List.map_fst_zip _ _ hlen
  refine ⟨Room.broadcastAll_state _ r, ?_, ?_⟩
  · rw [Room.broadcastAll_history _ r hh]
    have hm2 : ((messages.zip nows).map
        (fun q => (q.1.message, q.2))).length = messages.length := by
      rw [List.length_map, List.length_zip]
      omega
    rw [hm2, List.map_map]
    have hm1 : (messages.zip nows).map
        (Prod.fst ∘ fun q => (q.1.message, q.2))
        = messages.map (fun q => q.message) := by
      conv_rhs => rw [← hz, List.map_map]
      rfl
    rw [hm1]
  · rw [Room.broadcastAll_recorded]
    by_cases hr : r.is_recording
    · rw [if_pos hr, if_pos hr, List.map_map]
      rfl
    · rw [if_neg hr, if_neg hr]

/-- C4 witness: replaying one recorded message over a fresh room keeps
the null state and appends the message to the history. -/
theorem replay_leaves_state_unchanged_witness :
    ((Room.new "w" 0).replay_recording
        [{ message := RoomMessage.heartbeat, recorded_at := 0,
           session_time := 0 }] 1 [5]).state = (Room.new "w" 0).state ∧
    ((Room.new "w" 0).replay_recording
        [{ message := RoomMessage.heartbeat, recorded_at := 0,
           session_time := 0 }] 1 [5]).message_history =
      [RoomMessage.heartbeat] := by
  have h := replay_leaves_state_unchanged (Room.new "w" 0)
    [{ message := RoomMessage.heartbeat, recorded_at := 0,
       session_time := 0 }] 1 [5] (by simp) (by simp [Room.new])
  exact ⟨h.1, by simpa [Room.new] using h.2.1⟩

/-- C7: `ensure_room` returns the id both times, the second call leaves
the registry unchanged (the first call's room is not replaced), and
exactly one room is registered under the id afterwards. -/
theorem ensure_room_idempotent (m : RoomManager) (idr : String)
    (t1 t2 : Nat) (hnd : (m.rooms.map Prod.fst).Nodup) :
    (m.ensure_room idr t1).1 = idr ∧
    (((m.ensure_room idr t1).2).ensure_room idr t2).1 = idr ∧
    (((m.ensure_room idr t1).2).ensure_room idr t2).2 =
      (m.ensure_room idr t1).2 ∧
    (((m.ensure_room idr t1).2).rooms.map Prod.fst).count idr = 1 := by
  by_cases h : (m.get_room idr).isSome
  · rw [RoomManager.ensure_room, if_pos h]
    rw [RoomManager.ensure_room, if_pos h]
    refine ⟨rfl, rfl, rfl, ?_⟩
    exact List.count_eq_one_of_mem hnd (hmGet_mem_keys m.rooms idr h)
  · rw [RoomManager.ensure_room, if_neg h]
    have hnone : hmGet m.rooms idr = none := by
      rcases hg : hmGet m.rooms idr with _ | v
      · rfl
      · rw [RoomManager.get_room, hg] at h
        exact absurd rfl h
    have hins : hmInsert m.rooms idr (Room.new idr t1) =
        m.rooms ++ [(idr, Room.new idr t1)] :=
      hmInsert_of_absent m.rooms idr (Room.new idr t1) hnone
    have hsome : ((⟨hmInsert m.rooms idr (Room.new idr t1)⟩ :
        RoomManager).get_room idr).isSome = true := by
      rw [RoomManager.get_room]
      rw [show (⟨hmInsert m.rooms idr (Room.new idr t1)⟩ :
        RoomManager).rooms = hmInsert m.rooms idr (Room.new idr t1) from rfl]
      rw [hmGet_hmInsert_self]
      rfl
    rw [RoomManager.ensure_room, if_pos hsome]
    refine ⟨rfl, rfl, rfl, ?_⟩
    rw [show (⟨hmInsert m.rooms idr (Room.new idr t1)⟩ :
      RoomManager).rooms = hmInsert m.rooms idr (Room.new idr t1) from rfl]
    rw [hins, List.map_append, List.count_append]
    have h0 : (m.rooms.map Prod.fst).count idr = 0 :=
      List.count_eq_zero_of_not_mem ((hmGet_eq_none_iff m.rooms idr).mp hnone)
    rw [h0]
    simp

/-- C7 witness: on the empty registry, ensuring a room twice returns
the id both times, leaves the registry unchanged after the second call,
and registers the room exactly once. -/
theorem ensure_room_idempotent_witness :
    (RoomManager.new.ensure_room "r1" 3).1 = "r1" ∧
    (((RoomManager.new.ensure_room "r1" 3).2).ensure_room "r1" 9).2 =
      (RoomManager.new.ensure_room "r1" 3).2 := by
  have h := ensure_room_idempotent RoomManager.new "r1" 3 9
    (by simp [RoomManager.new])
  exact ⟨h.1, h.2.2.1⟩

/-- C8 counterexample: a room whose roster has been empty ever since
its creation at time 0, examined at time 1800001 (30 minutes and one
millisecond later, hence empty for more than 30 minutes), is NOT
removed by `cleanup_empty_rooms`, because the code compares the age
truncated to whole minutes (`num_minutes`, here 30) against 30. -/
theorem cleanup_keeps_room_empty_just_over_30min :
    staleEmptyRoom.clients = [] ∧
    (staleManager.cleanup_empty_rooms 1800001).rooms =
      [("stale", staleEmptyRoom)] := by
  constructor
  · rfl
  · rfl

/-- C8 amended: `cleanup_empty_rooms` removes every room whose roster
is empty and whose age `now - created_at`, truncated to whole minutes,
exceeds 30; it leaves intact every room with at least one connected
client, regardless of age, and never removes any room that was not
registered. -/
theorem cleanup_empty_rooms_spec (m : RoomManager) (now : Nat) :
    (∀ p ∈ m.rooms, p.2.clients = [] →
        30 < minutesSince now p.2.created_at →
        p ∉ (m.cleanup_empty_rooms now).rooms) ∧
    (∀ p ∈ m.rooms, p.2.clients ≠ [] →
        p ∈ (m.cleanup_empty_rooms now).rooms) ∧
    (∀ p, p ∈ (m.cleanup_empty_rooms now).rooms → p ∈ m.rooms) := by
  refine ⟨?_, ?_, ?_⟩
  · intro p hp hc ht hmem
    rw [RoomManager.cleanup_empty_rooms] at hmem
    rw [show (⟨m.rooms.filter (fun p =>
        !(p.2.clients.isEmpty &&
          decide ((30 : Int) < minutesSince now p.2.created_at)))⟩ :
      RoomManager).rooms = m.rooms.filter (fun p =>
        !(p.2.clients.isEmpty &&
          decide ((30 : Int) < minutesSince now p.2.created_at)))
      from rfl] at hmem
    rw [List.mem_filter] at hmem
    have hpred := hmem.2
    rw [hc] at hpred
    simp [ht] at hpred
  · intro p hp hc
    rw [RoomManager.cleanup_empty_rooms]
    rw [show (⟨m.rooms.filter (fun p =>
        !(p.2.clients.isEmpty &&
          decide ((30 : Int) < minutesSince now p.2.created_at)))⟩ :
      RoomManager).rooms = m.rooms.filter (fun p =>
        !(p.2.clients.isEmpty &&
          decide ((30 : Int) < minutesSince now p.2.created_at)))
      from rfl]
    rw [List.mem_filter]
    refine ⟨hp, ?_⟩
    have : p.2.clients.isEmpty = false := by
      rcases hcl : p.2.clients with _ | ⟨a, l⟩
      · exact absurd hcl hc
      · rfl
    simp [this]
  · intro p hp
    rw [RoomManager.cleanup_empty_rooms] at hp
    rw [show (⟨m.rooms.filter (fun p =>
        !(p.2.clients.isEmpty &&
          decide ((30 : Int) < minutesSince now p.2.created_at)))⟩ :
      RoomManager).rooms = m.rooms.filter (fun p =>
        !(p.2.clients.isEmpty &&
          decide ((30 : Int) < minutesSince now p.2.created_at)))
      from rfl] at hp
    exact (List.mem_filter.mp hp).1

/-- C8 amended witness: at time 1860000 (31 whole minutes) the stale
empty room is removed while the busy room with a connected client is
kept. -/
theorem cleanup_empty_rooms_spec_witness :
    ("stale", staleEmptyRoom) ∉
      (mixedManager.cleanup_empty_rooms 1860000).rooms ∧
    ("busy", busyRoom) ∈
      (mixedManager.cleanup_empty_rooms 1860000).rooms := by
  have h := cleanup_empty_rooms_spec mixedManager 1860000
  constructor
  · exact h.1 ("stale", staleEmptyRoom) (by simp [mixedManager]) rfl
      (by decide)
  · refine h.2.1 ("busy", busyRoom) (by simp [mixedManager]) ?_
    intro he
    exact absurd (congrArg List.length he) (by decide)

/-- C5 counterexample: a successfully synced `PresenterState` leaves
`current_state` as a JSON object, so a subsequent `update_state` merges
into it instead of replacing it with a fresh single-key object, contrary
to the claim's "not an object (for example ... a PresenterState value)"
reading. -/
theorem update_state_after_sync_merges :
    presenterExample.toJson.isObj = true ∧
    (roomAfterSync.update_state "currentSlide" (Json.str "s9")).state ≠
      Json.obj [("currentSlide", Json.str "s9")] := by
  refine ⟨rfl, fun hcontra => ?_⟩
  exact absurd
    (congrArg
      (fun j => match j with
        | Json.obj kvs => kvs.length
        | _ => 0) hcontra)
    (by decide)

/-- C5 amended: `update_state` (and `handle_event` for `slide:change` /
`fragment:change`, which store the payload under `currentSlide` /
`currentFragment` respectively) merges the key into `current_state`
when it is an object — the key maps to the new value and every other
key is untouched — and replaces `current_state` with a fresh single-key
object when it is not an object (e.g. null); a successfully synced
PresenterState value is itself an object, so it falls in the merge
case. -/
theorem update_state_merge_semantics (r : Room) (ev : EventData)
    (now : Nat) (k : String) (v : Json) :
    (∀ kvs, r.state = Json.obj kvs →
        ((r.update_state k v).state = Json.obj (jinsert kvs k v) ∧
          jlookup (jinsert kvs k v) k = some v ∧
          ∀ k', k' ≠ k →
            jlookup (jinsert kvs k v) k' = jlookup kvs k')) ∧
    (r.state.isObj = false →
        (r.update_state k v).state = Json.obj [(k, v)]) ∧
    (ev.name = "slide:change" →
        (r.handle_event ev now).state =
          (r.update_state "currentSlide" ev.data).state) ∧
    (ev.name = "fragment:change" →
        (r.handle_event ev now).state =
          (r.update_state "currentFragment" ev.data).state) := by
  refine ⟨?_, ?_, ?_, ?_⟩
  · intro kvs h
    rw [Room.update_state_obj r k v kvs h]
    exact ⟨rfl, jlookup_jinsert_self kvs k v,
      fun k' hk => jlookup_jinsert_other kvs k k' v hk⟩
  · intro h
    rw [Room.update_state_not_obj r k v h]
  · intro h
    rw [Room.handle_event_slide r ev now h, Room.broadcast_message_state]
  · intro h
    rw [Room.handle_event_fragment r ev now h, Room.broadcast_message_state]

/-- C5 amended witness: on a room whose state holds a previously set
`currentFragment`, a `slide:change` event merges `currentSlide` in and
keeps `currentFragment`; on a room with null state, `update_state`
produces the fresh single-key object. -/
theorem update_state_merge_semantics_witness :
    (({ Room.new "w" 0 with
          state := Json.obj [("currentFragment", Json.num 2)]
        }.handle_event
        { name := "slide:change", data := Json.str "s2", client_id := "c" }
        7).state =
      Json.obj [("currentFragment", Json.num 2),
        ("currentSlide", Json.str "s2")]) ∧
    ((Room.new "w" 0).update_state "currentSlide" (Json.str "s2")).state =
      Json.obj [("currentSlide", Json.str "s2")] := by
  have h := update_state_merge_semantics
    { Room.new "w" 0 with
      state := Json.obj [("currentFragment", Json.num 2)] }
    { name := "slide:change", data := Json.str "s2", client_id := "c" }
    7 "x" Json.null
  have h2 := update_state_merge_semantics (Room.new "w" 0)
    { name := "slide:change", data := Json.str "s2", client_id := "c" }
    7 "currentSlide" (Json.str "s2")
  constructor
  · rw [h.2.2.1 rfl]
    have h3 := (update_state_merge_semantics
      { Room.new "w" 0 with
        state := Json.obj [("currentFragment", Json.num 2)] }
      { name := "slide:change", data := Json.str "s2", client_id := "c" }
      7 "currentSlide" (Json.str "s2")).1
      [("currentFragment", Json.num 2)] rfl
    rw [h3.1]
    rfl
  · rw [(h2.2.1) rfl]

/-- C6: `handle_event` on a `presenter:sync` event replaces the state
wholesale with the serialized PresenterState when the payload decodes
(previously set keys such as `currentFragment` are gone), leaves the
state unchanged when decoding fails, and in either case still appends
the Event message to the history and publishes it, reporting no error. -/
theorem presenter_sync_replace_or_skip (r : Room) (ev : EventData)
    (now : Nat) (hname : ev.name = "presenter:sync")
    (hh : r.message_history.length ≤ 1000) :
    (∀ ps, PresenterState.fromJson? ev.data = some ps →
        ((r.handle_event ev now).state = ps.toJson ∧
          ((r.handle_event ev now).state).objLookup "currentFragment" =
            none)) ∧
    (PresenterState.fromJson? ev.data = none →
        (r.handle_event ev now).state = r.state) ∧
    (r.handle_event ev now).message_history =
      (r.message_history ++ [RoomMessage.event ev now]).drop
        (r.message_history.length + 1 - 1000) ∧
    (r.handle_event ev now).published =
      r.published ++ [RoomMessage.event ev now] := by
  refine ⟨?_, ?_, ?_, ?_⟩
  · intro ps hd
    rw [Room.handle_event_presenter_some r ev now ps hname hd,
      Room.broadcast_message_state]
    exact ⟨rfl, rfl⟩
  · intro hd
    rw [Room.handle_event_presenter_none r ev now hname hd,
      Room.broadcast_message_state]
  · cases hd : PresenterState.fromJson? ev.data with
    | some ps =>
        rw [Room.handle_event_presenter_some r ev now ps hname hd]
        rw [Room.broadcast_message_history (r.sync_presenter_state ps)
          (RoomMessage.event ev now) now hh]
        rfl
    | none =>
        rw [Room.handle_event_presenter_none r ev now hname hd]
        rw [Room.broadcast_message_history r
          (RoomMessage.event ev now) now hh]
  · cases hd : PresenterState.fromJson? ev.data with
    | some ps =>
        rw [Room.handle_event_presenter_some r ev now ps hname hd,
          Room.broadcast_message_published]
        rfl
    | none =>
        rw [Room.handle_event_presenter_none r ev now hname hd,
          Room.broadcast_message_published]

/-- C6 witness: a well-formed presenter payload — whether the usual
four-field object or serde's struct-from-array form, a four-element
array of the field values in declaration order — replaces the state of
a room (which previously held a `currentFragment` key) with the
serialized PresenterState; a malformed payload leaves it unchanged. -/
theorem presenter_sync_replace_or_skip_witness :
    (({ Room.new "w" 0 with
          state := Json.obj [("currentFragment", Json.num 2)]
        }.handle_event
        { name := "presenter:sync",
          data := Json.arr
            [Json.str "s3", Json.num 1, Json.str "d", Json.num 9],
          client_id := "c" } 7).state =
      Json.obj
        [("current_fragment", Json.num 1),
         ("current_slide", Json.str "s3"),
         ("deck_title", Json.str "d"),
         ("total_slides", Json.num 9)]) ∧
    (({ Room.new "w" 0 with
          state := Json.obj [("currentFragment", Json.num 2)]
        }.handle_event
        { name := "presenter:sync",
          data := Json.obj
            [("current_fragment", Json.num 1),
             ("current_slide", Json.str "s3"),
             ("deck_title", Json.str "d"),
             ("total_slides", Json.num 9)],
          client_id := "c" } 7).state =
      Json.obj
        [("current_fragment", Json.num 1),
         ("current_slide", Json.str "s3"),
         ("deck_title", Json.str "d"),
         ("total_slides", Json.num 9)]) ∧
    (({ Room.new "w" 0 with
          state := Json.obj [("currentFragment", Json.num 2)]
        }.handle_event
        { name := "presenter:sync", data := Json.str "garbage",
          client_id := "c" } 7).state =
      Json.obj [("currentFragment", Json.num 2)]) := by
  refine ⟨?_, ?_, ?_⟩
  · have h := presenter_sync_replace_or_skip
      { Room.new "w" 0 with
        state := Json.obj [("currentFragment", Json.num 2)] }
      { name := "presenter:sync",
        data := Json.arr
          [Json.str "s3", Json.num 1, Json.str "d", Json.num 9],
        client_id := "c" } 7 rfl (by simp [Room.new])
    have hdec := (h.1
      { current_slide := "s3", current_fragment := 1, deck_title := "d",
        total_slides := 9 } (by rfl)).1
    rw [hdec]
    rfl
  · have h := presenter_sync_replace_or_skip
      { Room.new "w" 0 with
        state := Json.obj [("currentFragment", Json.num 2)] }
      { name := "presenter:sync",
        data := Json.obj
          [("current_fragment", Json.num 1),
           ("current_slide", Json.str "s3"),
           ("deck_title", Json.str "d"),
           ("total_slides", Json.num 9)],
        client_id := "c" } 7 rfl (by simp [Room.new])
    have hdec := (h.1
      { current_slide := "s3", current_fragment := 1, deck_title := "d",
        total_slides := 9 } (by rfl)).1
    rw [hdec]
    rfl
  · have h := presenter_sync_replace_or_skip
      { Room.new "w" 0 with
        state := Json.obj [("currentFragment", Json.num 2)] }
      { name := "presenter:sync", data := Json.str "garbage",
        client_id := "c" } 7 rfl (by simp [Room.new])
    exact h.2.1 rfl

lemma u64Sub_eq (a b : Nat) (hba : b ≤ a) (ha : a < 2 ^ 64) :
    u64Sub a b = a - b := by
  unfold u64Sub
  rw [Int.emod_eq_of_lt (by omega) (by omega)]
  omega

/-- C10: when every message's `session_time` is at least the first
message's (as in any list produced by the room's own recording), the
u64 subtraction `session_time - start_time` in `replay_recording` never
underflows and equals the true difference; and the code performs no
check, so an input whose later message has a smaller `session_time`
makes the subtraction wrap (underflow). -/
theorem replay_subtraction_safety :
    (∀ (messages : List RecordedMessage) (m0 : RecordedMessage),
        messages.head? = some m0 →
        (∀ m ∈ messages, m.session_time < 2 ^ 64) →
        (∀ m ∈ messages, m0.session_time ≤ m.session_time) →
        ∀ m ∈ messages,
          u64Sub m.session_time m0.session_time =
            m.session_time - m0.session_time) ∧
    (∃ (msgs : List RecordedMessage) (ma mb : RecordedMessage),
        msgs.head? = some ma ∧ mb ∈ msgs ∧
        mb.session_time < ma.session_time ∧
        u64Sub mb.session_time ma.session_time = 2 ^ 64 - 2) := by
  constructor
  · intro messages m0 _ hbound hmin m hm
    exact u64Sub_eq _ _ (hmin m hm) (hbound m hm)
  · refine ⟨[{ message := RoomMessage.heartbeat, recorded_at := 0,
               session_time := 5 },
             { message := RoomMessage.heartbeat, recorded_at := 0,
               session_time := 3 }],
            { message := RoomMessage.heartbeat, recorded_at := 0,
              session_time := 5 },
            { message := RoomMessage.heartbeat, recorded_at := 0,
              session_time := 3 },
            rfl, by simp, by norm_num, by decide⟩

/-- C10 witness: a concrete two-message recording with non-decreasing
session times instantiates the no-underflow half. -/
theorem replay_subtraction_safety_witness : u64Sub 4 1 = 3 := by
  have h := replay_subtraction_safety.1
    [{ message := RoomMessage.heartbeat, recorded_at := 0,
       session_time := 1 },
     { message := RoomMessage.heartbeat, recorded_at := 0,
       session_time := 4 }]
    { message := RoomMessage.heartbeat, recorded_at := 0,
      session_time := 1 }
    rfl (by decide) (by decide)
    { message := RoomMessage.heartbeat, recorded_at := 0,
      session_time := 4 }
    (by simp)
  simpa using h

lemma ratAsU64_natCast (n : Nat) (h : n ≤ 18446744073709551615) :
    ratAsU64 ((n : ℚ) / 1) = n := by
  rw [div_one]
  unfold ratAsU64
  rcases Nat.eq_zero_or_pos n with h0 | h0
  · subst h0
    rw [if_pos (by norm_num)]
  · rw [if_neg (not_le.mpr (by exact_mod_cast h0))]
    rw [Rat.floor_def', Rat.num_natCast, Rat.den_natCast]
    simp
    omega

/-- C3 code-bug evidence: replaying three messages recorded at session
times 0, 1000 and 2000 ms with `time_compression = 1` sleeps the
absolute offsets 0, 1000 and 2000 ms before the successive broadcasts,
a cumulative 3000 ms before the third message, whereas the claimed
total delay `(session_time - start_time) / compression` for that
message is only 2000 ms. -/
theorem replay_timing_cumulative :
    replayDelays replayBugInput 1 = [0, 1000, 2000] ∧
    totalDelayBefore replayBugInput 1 2 = 3000 ∧
    ratAsU64 ((u64Sub 2000 0 : ℚ) / 1) = 2000 := by
  have e0 : u64Sub 0 0 = 0 := by decide
  have e1 : u64Sub 1000 0 = 1000 := by decide
  have e2 : u64Sub 2000 0 = 2000 := by decide
  have hd : replayDelays replayBugInput 1 = [0, 1000, 2000] := by
    rw [show replayDelays replayBugInput 1 =
        [ratAsU64 ((u64Sub 0 0 : ℚ) / 1),
         ratAsU64 ((u64Sub 1000 0 : ℚ) / 1),
         ratAsU64 ((u64Sub 2000 0 : ℚ) / 1)] from rfl]
    rw [e0, e1, e2]
    rw [ratAsU64_natCast 0 (by norm_num),
      ratAsU64_natCast 1000 (by norm_num),
      ratAsU64_natCast 2000 (by norm_num)]
  refine ⟨hd, ?_, ?_⟩
  · unfold totalDelayBefore
    rw [hd]
    rfl
  · rw [e2, ratAsU64_natCast 2000 (by norm_num)]

/-- C2: from a fresh room, after `start_recording`, N broadcasts and
`stop_recording`, `export_recording` is the newline-join of one
JSON-serialized `RecordedMessage` per broadcast: it is the empty string
when nothing was recorded, otherwise it splits on newlines into exactly
N lines in broadcast order, each line rendering a record that
deserializes back to itself and carries the corresponding message, with
non-decreasing `session_time` across the records. -/
theorem export_recording_roundtrip (idr : String) (created : Nat)
    (ps : List (RoomMessage × Nat))
    (hwf : ∀ p ∈ ps, p.1.timestampsOk = true)
    (hts : ∀ p ∈ ps, created ≤ p.2 ∧ p.2 < 2 ^ 63)
    (hmono : List.Chain' (· ≤ ·) (ps.map Prod.snd)) :
    let room :=
      (((Room.new idr created).start_recording).broadcastAll ps).stop_recording
    let recs := ps.map (fun p =>
      ({ message := p.1, recorded_at := p.2,
         session_time := sessionTimeOf p.2 created } : RecordedMessage))
    let lines := recs.map (fun recorded => renderJsonL recorded.toJson)
    room.export_recording = (⟨joinSep '\n' lines⟩ : String) ∧
    (ps = [] → room.export_recording = "") ∧
    (ps ≠ [] → splitOnChar '\n' (room.export_recording).data = lines) ∧
    lines.length = ps.length ∧
    (∀ rec ∈ recs, RecordedMessage.fromJson? rec.toJson = some rec) ∧
    recs.map (fun rec => rec.message) = ps.map Prod.fst ∧
    List.Chain' (· ≤ ·) (recs.map (fun rec => rec.session_time)) := by
  intro room recs lines
  have hrec : room.recorded_messages = recs := by
    show ((((Room.new idr created).start_recording).broadcastAll
      ps).stop_recording).recorded_messages = _
    have hstop : ∀ r : Room, r.stop_recording.recorded_messages =
        r.recorded_messages := fun r => rfl
    rw [hstop, Room.broadcastAll_recorded]
    simp [Room.start_recording, Room.new]
  have hexp : room.export_recording = (⟨joinSep '\n' lines⟩ : String) := by
    show (⟨joinSep '\n' (room.recorded_messages.map
        (fun recorded => renderJsonL recorded.toJson))⟩ : String) = _
    rw [hrec]
  have hlen : lines.length = ps.length := by
    show ((ps.map _).map _).length = ps.length
    simp
  refine ⟨hexp, ?_, ?_, hlen, ?_, ?_, ?_⟩
  · intro h
    subst h
    rw [hexp]
    rfl
  · intro h
    rw [hexp]
    show splitOnChar '\n' (joinSep '\n' lines) = lines
    apply splitOnChar_joinSep
    · intro hl
      apply h
      have : lines.length = 0 := by rw [hl]; rfl
      rw [hlen] at this
      exact List.length_eq_zero.mp this
    · intro l hl
      rcases List.mem_map.mp hl with ⟨rec, _, rfl⟩
      exact renderJsonL_ne_newline rec.toJson
  · intro rec hrecmem
    rcases List.mem_map.mp hrecmem with ⟨p, hp, rfl⟩
    exact RecordedMessage.recordedRoundtrip _ (hwf p hp) (hts p hp).2
      (sessionTimeOf_lt p.2 created)
  · show (ps.map _).map _ = _
    rw [List.map_map]
    rfl
  · show List.Chain' (· ≤ ·) ((ps.map _).map _)
    rw [List.map_map]
    exact chain'_sessionTime created ps hts hmono

/-- C2 witness: a two-message take on a fresh room exports as the
newline-join of the two rendered records. -/
theorem export_recording_roundtrip_witness :
    ((((Room.new "r" 0).start_recording).broadcastAll
        [(RoomMessage.heartbeat, 5), (RoomMessage.ack "a", 7)]).stop_recording).export_recording
      = (⟨joinSep '\n'
          (([({ message := RoomMessage.heartbeat, recorded_at := 5,
                session_time := sessionTimeOf 5 0 } : RecordedMessage),
             ({ message := RoomMessage.ack "a", recorded_at := 7,
                session_time := sessionTimeOf 7 0 } : RecordedMessage)]).map
            (fun recorded => renderJsonL recorded.toJson))⟩ : String) := by
  have h := export_recording_roundtrip "r" 0
    [(RoomMessage.heartbeat, 5), (RoomMessage.ack "a", 7)]
    (by decide) (by decide) (by simp [List.chain'_cons])
  exact h.1

end Coolslides
